import Mathlib

/-!
Verification development for the jsonschema2graphql compiler
(src/index.ts and src/schemaReducer.ts): a shallow embedding of the
schema-to-GraphQL-type compiler and proofs about its behaviour.
-/

set_option maxHeartbeats 1000000

namespace Jsonschema2Graphql

/--
A JSON-schema node (the `JSONSchema7` input type), restricted to the fields the
compiler reads: `$id`, `$ref`, `type`, `oneOf`, `properties`, `required`,
`items`, `enum`, `then`, `title`, `description`.  The JSON field `then` is
rendered `thn` because `then` is a Lean keyword.
-/
inductive SchemaNode : Type where
  | mk
      (id : Option String)
      (ref : Option String)
      (type : Option String)
      (oneOf : Option (List SchemaNode))
      (properties : Option (List (String × SchemaNode)))
      (required : Option (List String))
      (items : Option SchemaNode)
      (enum : Option (List String))
      (thn : Option SchemaNode)
      (title : Option String)
      (description : Option String)

@[simp] def SchemaNode.id : SchemaNode → Option String
  | .mk i _ _ _ _ _ _ _ _ _ _ => i

@[simp] def SchemaNode.ref : SchemaNode → Option String
  | .mk _ r _ _ _ _ _ _ _ _ _ => r

@[simp] def SchemaNode.type : SchemaNode → Option String
  | .mk _ _ t _ _ _ _ _ _ _ _ => t

@[simp] def SchemaNode.oneOf : SchemaNode → Option (List SchemaNode)
  | .mk _ _ _ o _ _ _ _ _ _ _ => o

@[simp] def SchemaNode.properties : SchemaNode → Option (List (String × SchemaNode))
  | .mk _ _ _ _ p _ _ _ _ _ _ => p

@[simp] def SchemaNode.required : SchemaNode → Option (List String)
  | .mk _ _ _ _ _ r _ _ _ _ _ => r

@[simp] def SchemaNode.items : SchemaNode → Option SchemaNode
  | .mk _ _ _ _ _ _ i _ _ _ _ => i

@[simp] def SchemaNode.enum : SchemaNode → Option (List String)
  | .mk _ _ _ _ _ _ _ e _ _ _ => e

@[simp] def SchemaNode.thn : SchemaNode → Option SchemaNode
  | .mk _ _ _ _ _ _ _ _ t _ _ => t

@[simp] def SchemaNode.title : SchemaNode → Option String
  | .mk _ _ _ _ _ _ _ _ _ t _ => t

@[simp] def SchemaNode.description : SchemaNode → Option String
  | .mk _ _ _ _ _ _ _ _ _ _ d => d

/--
The graphql-js type values the compiler constructs.  The four scalars are the
shared singletons of `BASIC_TYPE_MAPPING` (GraphQLString, GraphQLInt,
GraphQLFloat, GraphQLBoolean); being nullary constructors, equality on them is
identity, matching the source's shared-instance semantics.

An object type stores its `fields` closure un-forced: graphql-js evaluates the
`fields` function lazily on first access, so the data the closure captures (the
camel-cased name, `schema.properties`, `schema.required`) is stored here and
the registry — captured by reference in the source, hence read in whatever
state it is in when the closure runs — is supplied at forcing time
(`GraphQLType.getFields` below).
-/
inductive GraphQLType : Type where
  | scalarString
  | scalarInt
  | scalarFloat
  | scalarBoolean
  | enum (name : String) (description : Option String) (values : List (String × String))
  | union (name : String) (description : Option String) (members : List GraphQLType)
  | object (name : String) (description : Option String)
      (properties : Option (List (String × SchemaNode)))
      (required : Option (List String))
  | list (ofType : GraphQLType)
  | nonNull (ofType : GraphQLType)

/-- A GraphQL field configuration: `{ type, description }`. -/
structure GraphQLField : Type where
  type : GraphQLType
  description : Option String

/-- `GraphQLTypeMap` from src/types.ts: a mutable JS object keyed by strings. -/
abbrev TypeMap : Type := List (String × GraphQLType)

/-- JS object property read `m[k]` (`undefined` when absent). -/
def lookupAssoc {α : Type} : List (String × α) → String → Option α
  | [], _ => none
  | (k', v) :: rest, k => if k' = k then some v else lookupAssoc rest k

/-- JS object property write `m[k] = v`: overwrites in place (keeping the key's
original insertion position) or appends a new key. -/
def insertAssoc {α : Type} : List (String × α) → String → α → List (String × α)
  | [], k, v => [(k, v)]
  | (k', v') :: rest, k, v =>
      if k' = k then (k, v) :: rest else (k', v') :: insertAssoc rest k v

/-- JS truthiness of an optional string: `undefined` and `""` are falsy. -/
def truthy : Option String → Bool
  | none => false
  | some s => !(s == "")

/--
Modelled from the spec: the Name Sanitizer's upper-camel-case transformation
(the `uppercamelcase` dependency, which lives outside src/): non-alphanumeric
characters act as word boundaries and are dropped, and each word's first
letter is upper-cased.  The boolean argument records whether the next
alphanumeric character starts a word.
-/
def upperCamelCaseGo : List Char → Bool → List Char
  | [], _ => []
  | c :: cs, boundary =>
      if c.isAlphanum then
        (if boundary then c.toUpper else c) :: upperCamelCaseGo cs false
      else
        upperCamelCaseGo cs true

/-- Modelled from the spec: upper-camel-case a type name (see `upperCamelCaseGo`). -/
def upperCamelCase (s : String) : String :=
  String.mk (upperCamelCaseGo s.data true)

/-- A character legal in a target-language identifier. -/
def isIdentChar (c : Char) : Bool := c.isAlphanum || c == '_'

/--
Modelled from the spec: `graphqlSafeEnumKey` (src/graphqlSafeEnumKey.ts, a file
outside src/): a deterministic, best-effort (not injective) sanitization of an
enum literal that leaves a value unchanged when it is already a legal
identifier and otherwise maps illegal characters to `_`.
-/
def graphqlSafeEnumKey (s : String) : String :=
  if s ≠ "" && s.data.all isIdentChar then s
  else String.mk (s.data.map fun c => if isIdentChar c then c else '_')

/--
Modelled from the spec: `err` (src/helpers.ts, a file outside src/) builds the
thrown error from a message plus, when applicable, the offending qualified
name.  Errors are modelled as their message strings.
-/
def err (msg : String) (name : Option String) : String :=
  match name with
  | some n => msg ++ " (" ++ n ++ ")"
  | none => msg

/-- Maps basic JSON schema types to basic GraphQL types (the four shared
scalar singletons); any other key reads as `undefined`. -/
def BASIC_TYPE_MAPPING : String → Option GraphQLType
  | "string" => some .scalarString
  | "integer" => some .scalarInt
  | "number" => some .scalarFloat
  | "boolean" => some .scalarBoolean
  | _ => none

/--
`buildDescription(d)`: JS `d.title && d.description` then
`d.title || d.description || undefined`, under JS truthiness (an empty string
behaves as absent).
-/
def buildDescription (d : SchemaNode) : Option String :=
  if truthy d.title && truthy d.description then
    some ((d.title.getD "") ++ ": " ++ (d.description.getD ""))
  else if truthy d.title then d.title
  else if truthy d.description then d.description
  else none

/-- `caseSchema.then || caseSchema`: unwrap the optional conditional wrapper
around a `oneOf` case. -/
def caseSchema (c : SchemaNode) : SchemaNode :=
  match c.thn with
  | some t => t
  | none => c

/-- `_.includes(schema.required, fieldName)`; lodash tolerates an undefined
collection, yielding `false`. -/
def requiredIncludes (required : Option (List String)) (fieldName : String) : Bool :=
  match required with
  | none => false
  | some l => l.contains fieldName

/-- `_.keyBy(schema.enum, graphqlSafeEnumKey)` composed with
`_.mapValues(..., value => ({value}))`: an insertion-ordered map from sanitized
key to the original literal (a duplicate key silently overwrites). -/
def keyByEnum (vs : List String) : List (String × String) :=
  vs.foldl (fun acc v => insertAssoc acc (graphqlSafeEnumKey v) v) []

mutual

/--
`buildType(propName, schema, knownTypes, getTypeProperties?)` from
src/schemaReducer.ts: the discriminant branches are tried in the source's
fixed order (oneOf, object, array, enum, $ref, basic, unknown).  The optional
`getTypeProperties` hook is `undefined` on the default `convert` path and the
spread of its result contributes nothing when it is absent, so it is embedded
in its absent state.  Note that the object branch does **not** recurse: the
source passes a lazy `fields` closure, so the object constructor stores the
closure's captured data and `GraphQLType.getFields` forces it later.
-/
def buildType (propName : String) (schema : SchemaNode) (knownTypes : TypeMap) :
    Except String GraphQLType :=
  match h : schema.oneOf with
  | some cases =>
      (buildCases (upperCamelCase propName) 0 cases knownTypes).map fun types =>
        .union (upperCamelCase propName) (buildDescription schema) types
  | none =>
    if schema.type = some "object" then
      .ok (.object (upperCamelCase propName) (buildDescription schema)
            schema.properties schema.required)
    else if schema.type = some "array" then
      match h2 : schema.items with
      | some itemsSchema =>
          (buildType (upperCamelCase propName) itemsSchema knownTypes).map fun elementType =>
            .list (.nonNull elementType)
      | none =>
          -- `schema.items as JSONSchema7` is `undefined` here, and the
          -- recursive call immediately dereferences it (`schema.oneOf`), so
          -- the program crashes with a TypeError.
          .error "TypeError: Cannot read properties of undefined (reading oneOf)"
    else
      match schema.enum with
      | some enumValues =>
          if schema.type ≠ some "string" then
            .error (err "Only string enums are supported." (some (upperCamelCase propName)))
          else
            .ok (.enum (upperCamelCase propName) (buildDescription schema)
                  (keyByEnum enumValues))
      | none =>
        match schema.ref with
        | some refName =>
            match lookupAssoc knownTypes refName with
            | some t => .ok t
            | none =>
                .error (err ("The referenced type " ++ refName ++ " is unknown.")
                        (some (upperCamelCase propName)))
        | none =>
          match schema.type with
          | some tyName =>
              match BASIC_TYPE_MAPPING tyName with
              | some t => .ok t
              | none =>
                  .error (err ("The type " ++ tyName ++ " on property " ++
                          upperCamelCase propName ++ " is unknown.") none)
          | none =>
              .error (err ("The type undefined on property " ++
                      upperCamelCase propName ++ " is unknown.") none)
termination_by sizeOf schema
decreasing_by
  · cases schema with
    | mk i r ty oo pr rq it en th ti de =>
      simp only [SchemaNode.oneOf] at h
      subst h
      simp
      omega
  · cases schema with
    | mk i r ty oo pr rq it en th ti de =>
      simp only [SchemaNode.items] at h2
      subst h2
      simp
      omega

/--
The body of the `oneOf` branch's `caseKeys.map(...)`: `Object.keys` of the JS
array of cases yields the index strings "0", "1", …, each case is unwrapped
through its optional `then` wrapper, and the first thrown error propagates.
-/
def buildCases (name : String) (idx : Nat) (cases : List SchemaNode)
    (knownTypes : TypeMap) : Except String (List GraphQLType) :=
  match cases with
  | [] => .ok []
  | c :: rest => do
      let t ← buildType (name ++ ".oneOf[" ++ toString idx ++ "]") (caseSchema c) knownTypes
      let ts ← buildCases name (idx + 1) rest knownTypes
      .ok (t :: ts)
termination_by sizeOf cases
decreasing_by
  · have hle : sizeOf (caseSchema c) ≤ sizeOf c := by
      cases c with
      | mk i r ty oo pr rq it en th ti de =>
        cases th with
        | none => simp [caseSchema, SchemaNode.thn]
        | some t =>
          simp [caseSchema, SchemaNode.thn]
          omega
    have hlt : sizeOf c < sizeOf (c :: rest) := by
      simp
      omega
    omega
  · simp

end

/--
The `_.mapValues(schema.properties, ...)` part of the object branch's `fields`
closure: each property is built under the field-extended qualified name,
wrapped in NonNull exactly when its name is listed in `required`, given the
property's own composed description, and the first thrown error propagates.
-/
def buildFieldList (name : String) (required : Option (List String))
    (knownTypes : TypeMap) :
    List (String × SchemaNode) → Except String (List (String × GraphQLField))
  | [] => .ok []
  | p :: rest => do
      let t ← buildType (name ++ "." ++ p.1) p.2 knownTypes
      let fs ← buildFieldList name required knownTypes rest
      .ok ((p.1, ⟨if requiredIncludes required p.1 then .nonNull t else t,
                  buildDescription p.2⟩) :: fs)

/--
The body of the object branch's lazy `fields` closure, parameterised by the
data the closure captures (`name`, `schema.properties`, `schema.required`) and
by the registry in the state it has when the closure is forced.  If
`properties` is empty or absent (`_.isEmpty`), a single `_empty` placeholder
field of type GraphQLString is synthesized (because GraphQL forbids types with
no fields); the placeholder's config carries no description.
-/
def buildFields (name : String) (properties : Option (List (String × SchemaNode)))
    (required : Option (List String)) (knownTypes : TypeMap) :
    Except String (List (String × GraphQLField)) :=
  match properties with
  | none => .ok [("_empty", ⟨.scalarString, none⟩)]
  | some [] => .ok [("_empty", ⟨.scalarString, none⟩)]
  | some (p :: rest) => buildFieldList name required knownTypes (p :: rest)

/-- Force an object type's lazy field map against the registry as it stands at
forcing time (graphql-js calls the `fields` closure on first `getFields()`). -/
def GraphQLType.getFields (t : GraphQLType) (knownTypes : TypeMap) :
    Except String (List (String × GraphQLField)) :=
  match t with
  | .object name _ properties required => buildFields name properties required knownTypes
  | _ => .error "not an object type"

/--
`schemaReducer(knownTypes, { schema, getTypeProperties })` from
src/schemaReducer.ts.  The `new Ajv().validateSchema(schema)` call's result is
discarded by the source (computed but not enforced), so it has nothing to
model; the optional `getTypeProperties` hook is embedded in its absent state
(see `buildType`).  The constructed type is written into the registry under
the raw `$id` after `buildType` returns; a thrown error aborts the step with
the registry unchanged.
-/
def schemaReducer (knownTypes : TypeMap) (schema : SchemaNode) : Except String TypeMap :=
  match schema.id with
  | none => .error (err "Schema does not have an `$id` property." none)
  | some typeName =>
      (buildType typeName schema knownTypes).map fun t =>
        insertAssoc knownTypes typeName t

/-- `schemaArray.reduce(schemaReducer, init)` from src/index.ts `convert`
(there with `init = {}`): the strict left fold of a batch of documents, where
a thrown error aborts the whole batch. -/
def foldDocs (init : TypeMap) (docs : List SchemaNode) : Except String TypeMap :=
  docs.foldlM schemaReducer init

/-- The shape of a node that reaches `buildType`'s `$ref` branch: every
earlier discriminant fails and `$ref` is present with key `k`. -/
def refShape (n : SchemaNode) (k : String) : Prop :=
  n.oneOf = none ∧ n.type ≠ some "object" ∧ n.type ≠ some "array" ∧
    n.enum = none ∧ n.ref = some k

/-- Whether a constructed type is a NonNull wrapper. -/
def GraphQLType.isNonNull : GraphQLType → Bool
  | .nonNull _ => true
  | _ => false

/-- The `name` a constructed type carries.  Object, enum and union types are
named at construction; the shared scalars carry graphql-js's fixed scalar
names ("String", "Int", "Float", "Boolean"), independent of any schema; the
List and NonNull wrappers have no name of their own. -/
def GraphQLType.typeName? : GraphQLType → Option String
  | .enum n _ _ => some n
  | .union n _ _ => some n
  | .object n _ _ _ => some n
  | .scalarString => some "String"
  | .scalarInt => some "Int"
  | .scalarFloat => some "Float"
  | .scalarBoolean => some "Boolean"
  | .list _ => none
  | .nonNull _ => none

/-! Concrete schema nodes used to evaluate the theorems on closed inputs. -/

/-- A bare `{$ref: k}` node. -/
def refNode (k : String) : SchemaNode :=
  .mk none (some k) none none none none none none none none none

/-- A bare `{type: t}` node. -/
def typeNode (t : String) : SchemaNode :=
  .mk none none (some t) none none none none none none none none

/-- A top-level `{$id: i, type: t}` document. -/
def idTypeNode (i t : String) : SchemaNode :=
  .mk (some i) none (some t) none none none none none none none none

/-- `{type: "object"}` with no properties. -/
def emptyObjNode : SchemaNode :=
  .mk none none (some "object") none none none none none none none none

/-- `{type:"object", properties:{name:{type:"string"}}, required:["name"]}`. -/
def personNode : SchemaNode :=
  .mk none none (some "object") none (some [("name", typeNode "string")])
    (some ["name"]) none none none none none

/-- `{type:"array", items:{type:"string"}}`. -/
def arrayStringNode : SchemaNode :=
  .mk none none (some "array") none none none (some (typeNode "string"))
    none none none none

/-- `{type:"string", enum:["a","b-c"]}`. -/
def colorEnumNode : SchemaNode :=
  .mk none none (some "string") none none none none (some ["a", "b-c"])
    none none none

/-- A node whose `title` is present but equal to the empty string. -/
def emptyTitleNode : SchemaNode :=
  .mk none none none none none none none none none (some "") none

/-- A node with `title: "T"` and `description: "D"`. -/
def titleDescNode : SchemaNode :=
  .mk none none none none none none none none none (some "T") (some "D")

/-- `{$id:"A", type:"object", properties:{x:{$ref:"Missing"}}}`: a document
whose only `$ref` sits under `properties`, hence inside the lazy `fields`
closure. -/
def lazyRefDoc : SchemaNode :=
  .mk (some "A") none (some "object") none (some [("x", refNode "Missing")])
    none none none none none none

/-- `{$id:"D", $ref:"Missing"}`: a top-level document that is itself a
dangling reference. -/
def topRefDoc : SchemaNode :=
  .mk (some "D") (some "Missing") none none none none none none none none none

/-- `{$id:"my-doc", type:"object"}`: a document whose `$id` is not in
upper-camel-case form. -/
def myDocNode : SchemaNode :=
  .mk (some "my-doc") none (some "object") none none none none none none none none

/-! Branch characterizations of `buildType`, one per discriminant, mirroring
the source's fixed precedence order. -/

lemma buildType_oneOf {p : String} {n : SchemaNode} {cs : List SchemaNode}
    {reg : TypeMap} (h : n.oneOf = some cs) :
    buildType p n reg =
      (buildCases (upperCamelCase p) 0 cs reg).map fun types =>
        .union (upperCamelCase p) (buildDescription n) types := by
  cases n with
  | mk i r ty oo pr rq it en th ti de =>
    simp only [SchemaNode.oneOf] at h
    subst h
    rw [buildType.eq_def]
    simp

lemma buildType_object {p : String} {n : SchemaNode} {reg : TypeMap}
    (h1 : n.oneOf = none) (h2 : n.type = some "object") :
    buildType p n reg =
      .ok (.object (upperCamelCase p) (buildDescription n) n.properties n.required) := by
  cases n with
  | mk i r ty oo pr rq it en th ti de =>
    simp only [SchemaNode.oneOf, SchemaNode.type] at h1 h2
    subst h1 h2
    rw [buildType.eq_def]
    simp

lemma buildType_array {p : String} {n : SchemaNode} {itemsSchema : SchemaNode}
    {reg : TypeMap} (h1 : n.oneOf = none) (h2 : n.type = some "array")
    (h3 : n.items = some itemsSchema) :
    buildType p n reg =
      (buildType (upperCamelCase p) itemsSchema reg).map fun elementType =>
        .list (.nonNull elementType) := by
  cases n with
  | mk i r ty oo pr rq it en th ti de =>
    simp only [SchemaNode.oneOf, SchemaNode.type, SchemaNode.items] at h1 h2 h3
    subst h1 h2 h3
    rw [buildType.eq_def]
    simp

lemma buildType_enum_notString {p : String} {n : SchemaNode} {es : List String}
    {reg : TypeMap} (h1 : n.oneOf = none) (h2 : n.type ≠ some "object")
    (h3 : n.type ≠ some "array") (h4 : n.enum = some es)
    (h5 : n.type ≠ some "string") :
    buildType p n reg =
      .error (err "Only string enums are supported." (some (upperCamelCase p))) := by
  cases n with
  | mk i r ty oo pr rq it en th ti de =>
    simp only [SchemaNode.oneOf, SchemaNode.type, SchemaNode.enum] at h1 h2 h3 h4 h5
    subst h1 h4
    rw [buildType.eq_def]
    simp [h2, h3, h5]

lemma buildType_enum_string {p : String} {n : SchemaNode} {es : List String}
    {reg : TypeMap} (h1 : n.oneOf = none) (h2 : n.type = some "string")
    (h4 : n.enum = some es) :
    buildType p n reg =
      .ok (.enum (upperCamelCase p) (buildDescription n) (keyByEnum es)) := by
  cases n with
  | mk i r ty oo pr rq it en th ti de =>
    simp only [SchemaNode.oneOf, SchemaNode.type, SchemaNode.enum] at h1 h2 h4
    subst h1 h2 h4
    rw [buildType.eq_def]
    simp

lemma buildType_refShape {p k : String} {n : SchemaNode} {reg : TypeMap}
    (h : refShape n k) :
    buildType p n reg =
      match lookupAssoc reg k with
      | some t => .ok t
      | none => .error (err ("The referenced type " ++ k ++ " is unknown.")
                  (some (upperCamelCase p))) := by
  obtain ⟨h1, h2, h3, h4, h5⟩ := h
  cases n with
  | mk i r ty oo pr rq it en th ti de =>
    simp only [SchemaNode.oneOf, SchemaNode.type, SchemaNode.enum, SchemaNode.ref]
      at h1 h2 h3 h4 h5
    subst h1 h4 h5
    rw [buildType.eq_def]
    simp [h2, h3]

/-- Inversion for `BASIC_TYPE_MAPPING`: only the four primitive names map. -/
lemma BASIC_TYPE_MAPPING_inv {ty : String} {t : GraphQLType}
    (h : BASIC_TYPE_MAPPING ty = some t) :
    ty = "string" ∨ ty = "integer" ∨ ty = "number" ∨ ty = "boolean" := by
  unfold BASIC_TYPE_MAPPING at h
  split at h
  · left; rfl
  · right; left; rfl
  · right; right; left; rfl
  · right; right; right; rfl
  · exact absurd h (by simp)

lemma buildType_basic {p : String} {n : SchemaNode} {tyName : String}
    {t : GraphQLType} {reg : TypeMap} (h1 : n.oneOf = none)
    (h4 : n.enum = none) (h5 : n.ref = none) (h6 : n.type = some tyName)
    (h7 : BASIC_TYPE_MAPPING tyName = some t) :
    buildType p n reg = .ok t := by
  have hne := BASIC_TYPE_MAPPING_inv h7
  cases n with
  | mk i r ty oo pr rq it en th ti de =>
    simp only [SchemaNode.oneOf, SchemaNode.type, SchemaNode.enum, SchemaNode.ref]
      at h1 h4 h5 h6
    subst h1 h4 h5 h6
    rw [buildType.eq_def]
    have hObj : ¬ ((some tyName : Option String) = some "object") := by
      rcases hne with h | h | h | h <;> subst h <;> simp
    have hArr : ¬ ((some tyName : Option String) = some "array") := by
      rcases hne with h | h | h | h <;> subst h <;> simp
    simp [hObj, hArr, h7]

lemma buildCases_nil {name : String} {idx : Nat} {reg : TypeMap} :
    buildCases name idx [] reg = .ok [] := by
  rw [buildCases.eq_def]

lemma buildCases_cons {name : String} {idx : Nat} {c : SchemaNode}
    {rest : List SchemaNode} {reg : TypeMap} :
    buildCases name idx (c :: rest) reg =
      (do
        let t ← buildType (name ++ ".oneOf[" ++ toString idx ++ "]") (caseSchema c) reg
        let ts ← buildCases name (idx + 1) rest reg
        .ok (t :: ts)) := by
  rw [buildCases.eq_def]

/-! Registry (JS object) lemmas. -/

lemma lookupAssoc_insertAssoc {α : Type} (m : List (String × α)) (k k' : String) (v : α) :
    lookupAssoc (insertAssoc m k v) k' = if k = k' then some v else lookupAssoc m k' := by
  induction m with
  | nil => simp [insertAssoc, lookupAssoc]
  | cons hd tl ih =>
    obtain ⟨k0, v0⟩ := hd
    simp only [insertAssoc]
    by_cases h0 : k0 = k
    · subst h0
      simp only [if_pos rfl, lookupAssoc]
      by_cases h1 : k0 = k' <;> simp [h1]
    · rw [if_neg h0]
      simp only [lookupAssoc]
      rw [ih]
      by_cases h1 : k0 = k'
      · subst h1
        have h2 : ¬ k = k0 := fun hh => h0 hh.symm
        simp [h2]
      · by_cases h2 : k = k' <;> simp [h1, h2]

lemma lookupAssoc_eq_none_iff {α : Type} (m : List (String × α)) (k : String) :
    lookupAssoc m k = none ↔ k ∉ m.map Prod.fst := by
  induction m with
  | nil => simp [lookupAssoc]
  | cons hd tl ih =>
    obtain ⟨k0, v0⟩ := hd
    by_cases h0 : k0 = k
    · subst h0; simp [lookupAssoc]
    · simp [lookupAssoc, h0, ih, Ne.symm h0]

lemma insertAssoc_fresh_keys {α : Type} (m : List (String × α)) (k : String) (v : α)
    (h : lookupAssoc m k = none) :
    (insertAssoc m k v).map Prod.fst = m.map Prod.fst ++ [k] := by
  induction m with
  | nil => simp [insertAssoc]
  | cons hd tl ih =>
    obtain ⟨k0, v0⟩ := hd
    simp only [lookupAssoc] at h
    by_cases h0 : k0 = k
    · simp [h0] at h
    · simp [h0] at h
      simp [insertAssoc, h0, ih h]

/-! Fold (batch reduce) lemmas. -/

lemma foldDocs_nil (init : TypeMap) : foldDocs init [] = .ok init := rfl

lemma foldDocs_cons (init : TypeMap) (d : SchemaNode) (ds : List SchemaNode) :
    foldDocs init (d :: ds) =
      (schemaReducer init d).bind fun r => foldDocs r ds := rfl

lemma foldDocs_append (init : TypeMap) (l1 l2 : List SchemaNode) :
    foldDocs init (l1 ++ l2) = (foldDocs init l1).bind fun r => foldDocs r l2 := by
  induction l1 generalizing init with
  | nil => simp [foldDocs_nil, Except.bind]
  | cons d ds ih =>
    rw [List.cons_append, foldDocs_cons, foldDocs_cons]
    cases schemaReducer init d with
    | error e => simp [Except.bind]
    | ok r => simp [Except.bind, ih]

/-- A `schemaReducer` step on a document carrying an `$id` maps `buildType`'s
result into a registry write under the raw `$id`. -/
lemma schemaReducer_of_id {init : TypeMap} {d : SchemaNode} {i : String}
    (hid : d.id = some i) :
    schemaReducer init d = (buildType i d init).map fun t => insertAssoc init i t := by
  unfold schemaReducer
  rw [hid]

/-- A `schemaReducer` step on a document without an `$id` fails. -/
lemma schemaReducer_no_id {init : TypeMap} {d : SchemaNode} (hid : d.id = none) :
    schemaReducer init d = .error (err "Schema does not have an `$id` property." none) := by
  unfold schemaReducer
  rw [hid]

/-- Inversion of a successful `schemaReducer` step: the document had an `$id`,
`buildType` succeeded on it, and the result was written under the raw `$id`. -/
lemma schemaReducer_ok_inv {init r : TypeMap} {d : SchemaNode}
    (h : schemaReducer init d = .ok r) :
    ∃ i t, d.id = some i ∧ buildType i d init = .ok t ∧ r = insertAssoc init i t := by
  cases hid : d.id with
  | none =>
    rw [schemaReducer_no_id hid] at h
    exact absurd h (by simp)
  | some i =>
    rw [schemaReducer_of_id hid] at h
    cases hb : buildType i d init with
    | error e => rw [hb] at h; exact absurd h (by simp [Except.map])
    | ok t =>
      rw [hb] at h
      simp only [Except.map] at h
      exact ⟨i, t, rfl, hb, ((Except.ok.injEq _ _).mp h).symm⟩

/-- If `buildType` on a document fails, the `schemaReducer` step for that
document fails with the same error. -/
lemma schemaReducer_error {init : TypeMap} {d : SchemaNode} {i : String} {e : String}
    (hid : d.id = some i) (h : buildType i d init = .error e) :
    schemaReducer init d = .error e := by
  rw [schemaReducer_of_id hid, h]
  rfl

/-- Every key of a registry produced by folding a batch from `init` is either a
key of `init` or the `$id` of one of the batch's documents. -/
lemma foldDocs_keys {docs : List SchemaNode} {init reg : TypeMap}
    (h : foldDocs init docs = .ok reg) :
    ∀ k t, lookupAssoc reg k = some t →
      (∃ t0, lookupAssoc init k = some t0) ∨ k ∈ docs.filterMap SchemaNode.id := by
  induction docs generalizing init with
  | nil =>
    rw [foldDocs_nil] at h
    cases h
    intro k t hk
    exact Or.inl ⟨t, hk⟩
  | cons d ds ih =>
    rw [foldDocs_cons] at h
    cases hr : schemaReducer init d with
    | error e => rw [hr] at h; exact absurd h (by simp [Except.bind])
    | ok r1 =>
      rw [hr] at h
      simp only [Except.bind] at h
      intro k t hk
      obtain ⟨i, t1, hid, _, hins⟩ := schemaReducer_ok_inv hr
      rcases ih h k t hk with ⟨t0, h0⟩ | hmem
      · rw [hins, lookupAssoc_insertAssoc] at h0
        by_cases hik : i = k
        · subst hik
          right
          simp only [List.filterMap_cons, hid]
          exact List.mem_cons_self _ _
        · rw [if_neg hik] at h0
          exact Or.inl ⟨t0, h0⟩
      · right
        simp only [List.filterMap_cons, hid]
        exact List.mem_cons_of_mem _ hmem

lemma buildType_array_noItems {p : String} {n : SchemaNode} {reg : TypeMap}
    (h1 : n.oneOf = none) (h2 : n.type = some "array") (h3 : n.items = none) :
    buildType p n reg =
      .error "TypeError: Cannot read properties of undefined (reading oneOf)" := by
  cases n with
  | mk i r ty oo pr rq it en th ti de =>
    simp only [SchemaNode.oneOf, SchemaNode.type, SchemaNode.items] at h1 h2 h3
    subst h1 h2 h3
    rw [buildType.eq_def]
    simp

lemma buildType_unknown_some {p : String} {n : SchemaNode} {tyName : String}
    {reg : TypeMap} (h1 : n.oneOf = none) (h2 : n.type ≠ some "object")
    (h3 : n.type ≠ some "array") (h4 : n.enum = none) (h5 : n.ref = none)
    (h6 : n.type = some tyName) (h7 : BASIC_TYPE_MAPPING tyName = none) :
    buildType p n reg =
      .error (err ("The type " ++ tyName ++ " on property " ++
              upperCamelCase p ++ " is unknown.") none) := by
  cases n with
  | mk i r ty oo pr rq it en th ti de =>
    simp only [SchemaNode.oneOf, SchemaNode.type, SchemaNode.enum, SchemaNode.ref]
      at h1 h2 h3 h4 h5 h6
    subst h1 h4 h5 h6
    rw [buildType.eq_def]
    simp [h2, h3, h7]

lemma buildType_unknown_none {p : String} {n : SchemaNode} {reg : TypeMap}
    (h1 : n.oneOf = none) (h4 : n.enum = none) (h5 : n.ref = none)
    (h6 : n.type = none) :
    buildType p n reg =
      .error (err ("The type undefined on property " ++
              upperCamelCase p ++ " is unknown.") none) := by
  cases n with
  | mk i r ty oo pr rq it en th ti de =>
    simp only [SchemaNode.oneOf, SchemaNode.type, SchemaNode.enum, SchemaNode.ref]
      at h1 h4 h5 h6
    subst h1 h4 h5 h6
    rw [buildType.eq_def]
    simp

/-- A successful registry lookup returns one of the registry's entries. -/
lemma lookupAssoc_mem {α : Type} {m : List (String × α)} {k : String} {v : α}
    (h : lookupAssoc m k = some v) : (k, v) ∈ m := by
  induction m with
  | nil => exact absurd h (by simp [lookupAssoc])
  | cons hd tl ih =>
    obtain ⟨k0, v0⟩ := hd
    simp only [lookupAssoc] at h
    by_cases h0 : k0 = k
    · subst h0
      rw [if_pos rfl] at h
      cases h
      exact List.mem_cons_self _ _
    · rw [if_neg h0] at h
      exact List.mem_cons_of_mem _ (ih h)

@[simp] lemma except_bind_ok {ε α β : Type} (a : α) (f : α → Except ε β) :
    (Except.ok a >>= f) = f a := rfl

@[simp] lemma except_bind_error {ε α β : Type} (e : ε) (f : α → Except ε β) :
    ((Except.error e : Except ε α) >>= f) = Except.error e := rfl

@[simp] lemma except_map_ok {ε α β : Type} (f : α → β) (a : α) :
    (Except.ok a : Except ε α).map f = .ok (f a) := rfl

@[simp] lemma except_map_error {ε α β : Type} (f : α → β) (e : ε) :
    (Except.error e : Except ε α).map f = .error e := rfl

@[simp] lemma except_pure_eq_ok {ε α : Type} (a : α) :
    (pure a : Except ε α) = .ok a := rfl

/-- Inversion of `Except.map` producing a success. -/
lemma except_map_ok_inv {ε α β : Type} {f : α → β} {x : Except ε α} {b : β}
    (h : x.map f = .ok b) : ∃ a, x = .ok a ∧ b = f a := by
  cases x with
  | error e => exact absurd h (by simp [Except.map])
  | ok a =>
    simp only [Except.map] at h
    exact ⟨a, rfl, ((Except.ok.injEq _ _).mp h).symm⟩

/-- Positional description of a successful `buildFieldList` run. -/
lemma buildFieldList_ok_get {name : String} {required : Option (List String)}
    {reg : TypeMap} {props : List (String × SchemaNode)}
    {res : List (String × GraphQLField)}
    (h : buildFieldList name required reg props = .ok res) :
    res.length = props.length ∧
      ∀ (j : Nat) (fname : String) (sub : SchemaNode), props[j]? = some (fname, sub) →
        ∃ t, buildType (name ++ "." ++ fname) sub reg = .ok t ∧
          res[j]? = some (fname,
            GraphQLField.mk (if requiredIncludes required fname then .nonNull t else t)
              (buildDescription sub)) := by
  induction props generalizing res with
  | nil =>
    simp only [buildFieldList] at h
    cases h
    exact ⟨rfl, by intro j fname sub hj; simp at hj⟩
  | cons p rest ih =>
    obtain ⟨pname, psub⟩ := p
    simp only [buildFieldList] at h
    cases hb : buildType (name ++ "." ++ pname) psub reg with
    | error e => rw [hb] at h; exact absurd h (by simp)
    | ok t =>
      rw [hb] at h
      simp only [except_bind_ok] at h
      cases hrest : buildFieldList name required reg rest with
      | error e => rw [hrest] at h; exact absurd h (by simp)
      | ok fs =>
        rw [hrest] at h
        simp only [except_bind_ok, except_pure_eq_ok, Except.ok.injEq] at h
        subst h
        obtain ⟨hlen, hget⟩ := ih hrest
        refine ⟨by simp [hlen], ?_⟩
        intro j fname sub hj
        cases j with
        | zero =>
          simp only [List.getElem?_cons_zero] at hj
          cases hj
          exact ⟨t, hb, by simp⟩
        | succ j' =>
          simp only [List.getElem?_cons_succ] at hj
          obtain ⟨t', ht', hres'⟩ := hget j' fname sub hj
          exact ⟨t', ht', by simpa using hres'⟩

/-- Scalars from the basic-type mapping are not NonNull wrappers. -/
lemma BASIC_TYPE_MAPPING_not_nonNull {ty : String} {t : GraphQLType}
    (h : BASIC_TYPE_MAPPING ty = some t) : t.isNonNull = false := by
  unfold BASIC_TYPE_MAPPING at h
  split at h <;> first
    | (cases h; rfl)
    | exact absurd h (by simp)

/--
`buildType` never returns a NonNull wrapper at top level (as long as the
registry contains none): every branch returns a union, object, list, enum,
scalar, or a registry entry.  NonNull only ever appears *inside* a List or a
field type.
-/
lemma buildType_not_nonNull {p : String} {n : SchemaNode} {reg : TypeMap}
    {t : GraphQLType} (hreg : ∀ kv ∈ reg, (kv.2).isNonNull = false)
    (h : buildType p n reg = .ok t) : t.isNonNull = false := by
  cases hOne : n.oneOf with
  | some cs =>
    rw [buildType_oneOf hOne] at h
    obtain ⟨ts, _, ht⟩ := except_map_ok_inv h
    subst ht
    rfl
  | none =>
    by_cases hObj : n.type = some "object"
    · rw [buildType_object hOne hObj] at h
      cases h
      rfl
    · by_cases hArr : n.type = some "array"
      · cases hIt : n.items with
        | some i =>
          rw [buildType_array hOne hArr hIt] at h
          obtain ⟨e, _, ht⟩ := except_map_ok_inv h
          subst ht
          rfl
        | none =>
          rw [buildType_array_noItems hOne hArr hIt] at h
          exact absurd h (by simp)
      · cases hEn : n.enum with
        | some es =>
          by_cases hStr : n.type = some "string"
          · rw [buildType_enum_string hOne hStr hEn] at h
            cases h
            rfl
          · rw [buildType_enum_notString hOne hObj hArr hEn hStr] at h
            exact absurd h (by simp)
        | none =>
          cases hRef : n.ref with
          | some k =>
            rw [buildType_refShape ⟨hOne, hObj, hArr, hEn, hRef⟩] at h
            cases hl : lookupAssoc reg k with
            | none => rw [hl] at h; exact absurd h (by simp)
            | some t2 =>
              rw [hl] at h
              have h2 : t2 = t := (Except.ok.injEq _ _).mp h
              subst h2
              exact hreg _ (lookupAssoc_mem hl)
          | none =>
            cases hTy : n.type with
            | none =>
              rw [buildType_unknown_none hOne hEn hRef hTy] at h
              exact absurd h (by simp)
            | some ty =>
              cases hB : BASIC_TYPE_MAPPING ty with
              | some t' =>
                rw [buildType_basic hOne hEn hRef hTy hB] at h
                cases h
                exact BASIC_TYPE_MAPPING_not_nonNull hB
              | none =>
                rw [buildType_unknown_some hOne hObj hArr hEn hRef hTy hB] at h
                exact absurd h (by simp)

/--
Folding a batch of documents whose `$id`s are fresh, pairwise distinct, and
whose compilations all succeed extends the registry's key list with exactly
those `$id`s, in document order.
-/
lemma foldDocs_fresh {docs : List SchemaNode} {ids : List String} {init : TypeMap}
    (hIds : docs.map SchemaNode.id = ids.map some)
    (hNodup : ids.Nodup)
    (hFresh : ∀ i ∈ ids, lookupAssoc init i = none)
    (hOk : ∀ d i, d ∈ docs → d.id = some i → ∀ r : TypeMap, ∃ t, buildType i d r = .ok t) :
    ∃ reg, foldDocs init docs = .ok reg ∧
      reg.map Prod.fst = init.map Prod.fst ++ ids := by
  induction docs generalizing ids init with
  | nil =>
    have hids : ids = [] := by
      cases ids with
      | nil => rfl
      | cons a l => simp at hIds
    subst hids
    exact ⟨init, foldDocs_nil init, by simp⟩
  | cons d ds ih =>
    cases ids with
    | nil => simp at hIds
    | cons i ids' =>
      simp only [List.map_cons, List.cons.injEq] at hIds
      obtain ⟨hid, hIds'⟩ := hIds
      obtain ⟨t, ht⟩ := hOk d i (List.mem_cons_self _ _) hid init
      have hfreshi : lookupAssoc init i = none := hFresh i (List.mem_cons_self _ _)
      have hkeys1 : (insertAssoc init i t).map Prod.fst = init.map Prod.fst ++ [i] :=
        insertAssoc_fresh_keys init i t hfreshi
      have hNodup' : ids'.Nodup := (List.nodup_cons.mp hNodup).2
      have hFresh' : ∀ j ∈ ids', lookupAssoc (insertAssoc init i t) j = none := by
        intro j hj
        rw [lookupAssoc_insertAssoc]
        have hij : ¬ i = j := by
          intro hh
          subst hh
          exact (List.nodup_cons.mp hNodup).1 hj
        rw [if_neg hij]
        exact hFresh j (List.mem_cons_of_mem _ hj)
      obtain ⟨reg, hreg, hregkeys⟩ :=
        ih hIds' hNodup' hFresh' (fun d' i' hd' => hOk d' i' (List.mem_cons_of_mem _ hd'))
      refine ⟨reg, ?_, ?_⟩
      · rw [foldDocs_cons, schemaReducer_of_id hid, ht]
        simp only [Except.map, Except.bind]
        exact hreg
      · rw [hregkeys, hkeys1, List.append_assoc]
        rfl

/-!
## Claims
-/

/--
C6: for every node with type "array" (no `oneOf`, type not "object"),
`buildType` recursively builds the `items` sub-schema under the same qualified
name as the array itself (not extended with any suffix) and returns a List
wrapping a NonNull of the element type, for arbitrary `items` shapes.
-/
theorem claim_C6 (p : String) (n itemsSchema : SchemaNode) (reg : TypeMap)
    (h1 : n.oneOf = none) (h2 : n.type = some "array")
    (h3 : n.items = some itemsSchema) :
    buildType p n reg =
      (buildType (upperCamelCase p) itemsSchema reg).map fun elementType =>
        .list (.nonNull elementType) :=
  buildType_array h1 h2 h3

/-- C6 witness: `{type:"array", items:{type:"string"}}` under name "things"
builds `[String!]`, its element built under the array's own name. -/
theorem claim_C6_witness :
    buildType "things" arrayStringNode [] =
      (buildType (upperCamelCase "things") (typeNode "string") []).map
        fun elementType => .list (.nonNull elementType) :=
  claim_C6 "things" arrayStringNode (typeNode "string") [] rfl rfl rfl

/--
C8: for every node whose only matching discriminant is a primitive type name,
`buildType` returns the corresponding shared primitive singleton, identical
regardless of the qualified-name argument (and of the registry), with no
per-schema construction.
-/
theorem claim_C8 (p : String) (n : SchemaNode) (reg : TypeMap) (tyName : String)
    (t : GraphQLType) (h1 : n.oneOf = none) (h4 : n.enum = none)
    (h5 : n.ref = none) (h6 : n.type = some tyName)
    (h7 : BASIC_TYPE_MAPPING tyName = some t) :
    buildType p n reg = .ok t ∧
      ∀ (p2 : String) (reg2 : TypeMap), buildType p2 n reg2 = buildType p n reg := by
  refine ⟨buildType_basic h1 h4 h5 h6 h7, ?_⟩
  intro p2 reg2
  rw [buildType_basic h1 h4 h5 h6 h7, buildType_basic h1 h4 h5 h6 h7]

/-- C8 witness: `{type:"integer"}` yields the shared Int scalar under any
qualified name and registry. -/
theorem claim_C8_witness :
    buildType "a" (typeNode "integer") [] = .ok .scalarInt ∧
      buildType "b" (typeNode "integer") [("x", .scalarString)] =
        buildType "a" (typeNode "integer") [] :=
  ⟨(claim_C8 "a" (typeNode "integer") [] "integer" .scalarInt
      rfl rfl rfl rfl rfl).1,
   (claim_C8 "a" (typeNode "integer") [] "integer" .scalarInt
      rfl rfl rfl rfl rfl).2 "b" [("x", .scalarString)]⟩

/--
C5: for every object node whose `properties` is empty or absent, the
constructed object type's forced field map contains exactly one field,
`_empty`, of primitive string type — whatever registry it is forced against.
-/
theorem claim_C5 (p : String) (n : SchemaNode) (reg forceReg : TypeMap)
    (h1 : n.oneOf = none) (h2 : n.type = some "object")
    (h3 : n.properties = none ∨ n.properties = some []) :
    buildType p n reg =
        .ok (.object (upperCamelCase p) (buildDescription n)
              n.properties n.required) ∧
      (GraphQLType.object (upperCamelCase p) (buildDescription n)
            n.properties n.required).getFields forceReg =
        .ok [("_empty", GraphQLField.mk .scalarString none)] := by
  refine ⟨buildType_object h1 h2, ?_⟩
  rcases h3 with h3 | h3 <;>
    simp only [GraphQLType.getFields] <;> rw [h3] <;> simp [buildFields]

/-- C5 witness: `{type:"object"}` under name "empty-obj" registers an object
whose forced fields are exactly the `_empty` string placeholder. -/
theorem claim_C5_witness :
    buildType "empty-obj" emptyObjNode [] =
        .ok (.object "EmptyObj" none none none) ∧
      (GraphQLType.object "EmptyObj" none none none).getFields [] =
        .ok [("_empty", GraphQLField.mk .scalarString none)] := by
  have e : upperCamelCase "empty-obj" = "EmptyObj" := by decide
  have h := claim_C5 "empty-obj" emptyObjNode [] [] rfl rfl (Or.inl rfl)
  rw [e] at h
  exact h

/--
C7: a node reaching the enum branch (enum present, no `oneOf`, type neither
"object" nor "array") makes `buildType` fail if and only if its `type` is not
exactly "string"; with type "string" an enum type is constructed.
-/
theorem claim_C7 (p : String) (n : SchemaNode) (reg : TypeMap) (es : List String)
    (h1 : n.oneOf = none) (h2 : n.type ≠ some "object")
    (h3 : n.type ≠ some "array") (h4 : n.enum = some es) :
    ((∃ e, buildType p n reg = .error e) ↔ n.type ≠ some "string") ∧
      (n.type = some "string" →
        buildType p n reg =
          .ok (.enum (upperCamelCase p) (buildDescription n) (keyByEnum es))) := by
  by_cases hs : n.type = some "string"
  · have hb := @buildType_enum_string p n es reg h1 hs h4
    refine ⟨⟨?_, ?_⟩, fun _ => hb⟩
    · rintro ⟨e, he⟩
      rw [hb] at he
      exact absurd he (by simp)
    · intro hne
      exact absurd hs hne
  · have hb := @buildType_enum_notString p n es reg h1 h2 h3 h4 hs
    exact ⟨⟨fun _ => hs, fun _ => ⟨_, hb⟩⟩, fun hcon => absurd hcon hs⟩

/-- C7 witness: `{type:"string", enum:["a","b-c"]}` constructs an enum and
does not fail. -/
theorem claim_C7_witness :
    ((∃ e, buildType "color" colorEnumNode [] = .error e) ↔
        colorEnumNode.type ≠ some "string") ∧
      (colorEnumNode.type = some "string" →
        buildType "color" colorEnumNode [] =
          .ok (.enum (upperCamelCase "color") (buildDescription colorEnumNode)
                (keyByEnum ["a", "b-c"]))) :=
  claim_C7 "color" colorEnumNode [] ["a", "b-c"] rfl (by decide) (by decide) rfl

/--
C3 counterexample: the Description Composer applies JS truthiness, not
presence.  On a node whose `title` is present but equal to `""` (and no
description), exactly one of the two fields is present, yet the composer
returns the no-description value instead of the present title.
-/
theorem claim_C3_counterexample :
    emptyTitleNode.title = some "" ∧ emptyTitleNode.description = none ∧
      buildDescription emptyTitleNode = none ∧
      buildDescription emptyTitleNode ≠ emptyTitleNode.title := by
  decide

/--
C3 amended: for every node, the Description Composer returns
`"<title>: <description>"` when both title and description are present and
non-empty, returns whichever of the two is present and non-empty when exactly
one is, and otherwise returns the explicit no-description value `none`, which
is distinct from the empty string; it is a pure total function.
-/
theorem claim_C3 (n : SchemaNode) :
    (∀ t d, n.title = some t → t ≠ "" → n.description = some d → d ≠ "" →
        buildDescription n = some (t ++ ": " ++ d)) ∧
      (∀ t, n.title = some t → t ≠ "" →
        (n.description = none ∨ n.description = some "") →
        buildDescription n = some t) ∧
      (∀ d, (n.title = none ∨ n.title = some "") → n.description = some d →
        d ≠ "" → buildDescription n = some d) ∧
      ((n.title = none ∨ n.title = some "") →
        (n.description = none ∨ n.description = some "") →
        buildDescription n = none) ∧
      (none : Option String) ≠ some "" := by
  refine ⟨?_, ?_, ?_, ?_, by simp⟩
  · intro t d ht htne hd hdne
    rw [buildDescription, ht, hd]
    simp [truthy, htne, hdne]
  · intro t ht htne hd
    rw [buildDescription, ht]
    rcases hd with hd | hd <;> rw [hd] <;> simp [truthy, htne]
  · intro d ht hd hdne
    rw [buildDescription, hd]
    rcases ht with ht | ht <;> rw [ht] <;> simp [truthy, hdne]
  · intro ht hd
    rcases ht with ht | ht <;> rcases hd with hd | hd <;>
      rw [buildDescription, ht, hd] <;> simp [truthy]

/-- C3 witness: `{title:"T", description:"D"}` composes to `"T: D"`. -/
theorem claim_C3_witness : buildDescription titleDescNode = some ("T" ++ ": " ++ "D") :=
  (claim_C3 titleDescNode).1 "T" "D" rfl (by decide) rfl (by decide)

/--
C4: for every object node and property, the forced field for that property is
NonNull-wrapped exactly when the property's name appears in the node's
`required` list (absent `required` meaning not required), provided the
registry the fields are forced against holds no top-level NonNull entries
(which `buildType` never produces).
-/
theorem claim_C4 (p : String) (n : SchemaNode) (ps : List (String × SchemaNode))
    (reg forceReg : TypeMap) (T : GraphQLType)
    (flds : List (String × GraphQLField)) (j : Nat) (fname : String)
    (sub : SchemaNode)
    (h1 : n.oneOf = none) (h2 : n.type = some "object")
    (h3 : n.properties = some ps)
    (hB : buildType p n reg = .ok T)
    (hW : ∀ kv ∈ forceReg, (kv.2).isNonNull = false)
    (hF : T.getFields forceReg = .ok flds)
    (hj : ps[j]? = some (fname, sub)) :
    ∃ t, buildType (upperCamelCase p ++ "." ++ fname) sub forceReg = .ok t ∧
      flds[j]? = some (fname,
        GraphQLField.mk
          (if requiredIncludes n.required fname then .nonNull t else t)
          (buildDescription sub)) ∧
      GraphQLType.isNonNull
          (if requiredIncludes n.required fname then .nonNull t else t) =
        requiredIncludes n.required fname := by
  rw [buildType_object h1 h2] at hB
  have hT : T = .object (upperCamelCase p) (buildDescription n)
      n.properties n.required := ((Except.ok.injEq _ _).mp hB).symm
  subst hT
  simp only [GraphQLType.getFields] at hF
  rw [h3] at hF
  cases ps with
  | nil => simp at hj
  | cons p0 rest =>
    simp only [buildFields] at hF
    obtain ⟨hlen, hget⟩ := buildFieldList_ok_get hF
    obtain ⟨t, ht, hres⟩ := hget j fname sub hj
    refine ⟨t, ht, hres, ?_⟩
    cases hreq : requiredIncludes n.required fname
    · simp only [Bool.false_eq_true, if_false]
      exact buildType_not_nonNull hW ht
    · simp [GraphQLType.isNonNull]

/-- C4 witness: in `personNode`, the required field `name` comes out NonNull. -/
theorem claim_C4_witness :
    ∃ t, buildType (upperCamelCase "person" ++ "." ++ "name") (typeNode "string") [] =
        .ok t ∧
      ([("name", GraphQLField.mk (.nonNull .scalarString) none)])[0]? = some ("name",
        GraphQLField.mk
          (if requiredIncludes personNode.required "name" then .nonNull t else t)
          (buildDescription (typeNode "string"))) ∧
      GraphQLType.isNonNull
          (if requiredIncludes personNode.required "name" then .nonNull t else t) =
        requiredIncludes personNode.required "name" := by
  apply claim_C4 "person" personNode [("name", typeNode "string")] [] []
      (.object (upperCamelCase "person") (buildDescription personNode)
        personNode.properties personNode.required)
      [("name", GraphQLField.mk (.nonNull .scalarString) none)] 0 "name"
      (typeNode "string") rfl rfl rfl (buildType_object rfl rfl) (by simp)
      ?_ rfl
  simp only [GraphQLType.getFields, SchemaNode.properties, personNode, buildFields,
    SchemaNode.required, buildFieldList]
  rw [@buildType_basic (upperCamelCase "person" ++ "." ++ "name") (typeNode "string")
      "string" GraphQLType.scalarString [] rfl rfl rfl rfl rfl]
  simp [requiredIncludes, buildDescription, truthy, typeNode]

/--
C10 counterexample: a primitive-typed top-level document refutes "the
constructed type itself is named with the upper-camel-case transformation of
that `$id`": `{$id:"my-doc", type:"string"}` registers the shared
GraphQLString scalar under the raw key "my-doc", and that scalar's name is
"String" — not `upperCamelCase("my-doc") = "MyDoc"`.
-/
theorem claim_C10_counterexample :
    schemaReducer [] (idTypeNode "my-doc" "string") =
        .ok [("my-doc", GraphQLType.scalarString)] ∧
      GraphQLType.scalarString.typeName? = some "String" ∧
      upperCamelCase "my-doc" = "MyDoc" ∧
      GraphQLType.scalarString.typeName? ≠ some (upperCamelCase "my-doc") := by
  refine ⟨?_, rfl, by decide, by decide⟩
  rw [@schemaReducer_of_id [] (idTypeNode "my-doc" "string") "my-doc" rfl,
    @buildType_basic "my-doc" (idTypeNode "my-doc" "string") "string"
      .scalarString [] rfl rfl rfl rfl rfl]
  rfl

/--
C10 amended: for every top-level document, `schemaReducer` stores the
constructed type in the registry under the raw `$id` string, and a `$ref`
resolves against that registry only by exact character-for-character key
match: a key equal to this document's raw `$id` yields its type, and any
other key (the camel-cased name included) resolves or fails exactly as the
prior registry dictates.  A document constructing a named type — a `oneOf`
union, an object, or a string enum — names it `upperCamelCase($id)`, so when
the `$id` is not already upper-camel-case the registry key differs from the
type's name; a primitive-typed document instead registers the shared scalar,
whose name is the scalar's own, not derived from the `$id` (see the
counterexample).
-/
theorem claim_C10 (i p k : String) (n n' : SchemaNode) (reg : TypeMap)
    (T : GraphQLType) (hid : n.id = some i) (hB : buildType i n reg = .ok T) :
    schemaReducer reg n = .ok (insertAssoc reg i T) ∧
      lookupAssoc (insertAssoc reg i T) i = some T ∧
      (∀ cs, n.oneOf = some cs → T.typeName? = some (upperCamelCase i)) ∧
      (n.oneOf = none → n.type = some "object" →
        T.typeName? = some (upperCamelCase i)) ∧
      (∀ es, n.oneOf = none → n.type = some "string" → n.enum = some es →
        T.typeName? = some (upperCamelCase i)) ∧
      (i ≠ upperCamelCase i → T.typeName? = some (upperCamelCase i) →
        T.typeName? ≠ some i) ∧
      (refShape n' k → k = i →
        buildType p n' (insertAssoc reg i T) = .ok T) ∧
      (refShape n' k → k ≠ i →
        buildType p n' (insertAssoc reg i T) =
          match lookupAssoc reg k with
          | some t => .ok t
          | none => .error (err ("The referenced type " ++ k ++ " is unknown.")
              (some (upperCamelCase p)))) := by
  refine ⟨?_, ?_, ?_, ?_, ?_, ?_, ?_, ?_⟩
  · rw [schemaReducer_of_id hid, hB]
    rfl
  · rw [lookupAssoc_insertAssoc, if_pos rfl]
  · intro cs hoo
    rw [buildType_oneOf hoo] at hB
    obtain ⟨ts, _, hT⟩ := except_map_ok_inv hB
    subst hT
    rfl
  · intro h1 h2
    rw [buildType_object h1 h2] at hB
    have hT : T = .object (upperCamelCase i) (buildDescription n)
        n.properties n.required := ((Except.ok.injEq _ _).mp hB).symm
    subst hT
    rfl
  · intro es h1 h2 h4
    rw [buildType_enum_string h1 h2 h4] at hB
    have hT : T = .enum (upperCamelCase i) (buildDescription n) (keyByEnum es) :=
      ((Except.ok.injEq _ _).mp hB).symm
    subst hT
    rfl
  · intro hne hname hcon
    rw [hname] at hcon
    exact hne (((Option.some.injEq _ _).mp hcon).symm)
  · intro hr hki
    subst hki
    rw [buildType_refShape hr, lookupAssoc_insertAssoc, if_pos rfl]
  · intro hr hki
    rw [buildType_refShape hr, lookupAssoc_insertAssoc,
      if_neg (fun hh => hki hh.symm)]

/-- C10 witness: `$id` "my-doc" (object-typed) registers under the raw key
"my-doc" while the type is named "MyDoc"; a `$ref` to "my-doc" resolves to it,
and a `$ref` to any other key — "MyDoc" included — falls through to the prior
(here empty) registry. -/
theorem claim_C10_witness :
    schemaReducer [] myDocNode =
        .ok (insertAssoc [] "my-doc"
          (.object (upperCamelCase "my-doc") (buildDescription myDocNode)
            myDocNode.properties myDocNode.required)) ∧
      lookupAssoc (insertAssoc [] "my-doc"
          (GraphQLType.object (upperCamelCase "my-doc") (buildDescription myDocNode)
            myDocNode.properties myDocNode.required)) "my-doc" =
        some (.object (upperCamelCase "my-doc") (buildDescription myDocNode)
          myDocNode.properties myDocNode.required) ∧
      (∀ cs, myDocNode.oneOf = some cs →
        (GraphQLType.object (upperCamelCase "my-doc") (buildDescription myDocNode)
            myDocNode.properties myDocNode.required).typeName? =
          some (upperCamelCase "my-doc")) ∧
      (myDocNode.oneOf = none → myDocNode.type = some "object" →
        (GraphQLType.object (upperCamelCase "my-doc") (buildDescription myDocNode)
            myDocNode.properties myDocNode.required).typeName? =
          some (upperCamelCase "my-doc")) ∧
      (∀ es, myDocNode.oneOf = none → myDocNode.type = some "string" →
        myDocNode.enum = some es →
        (GraphQLType.object (upperCamelCase "my-doc") (buildDescription myDocNode)
            myDocNode.properties myDocNode.required).typeName? =
          some (upperCamelCase "my-doc")) ∧
      ("my-doc" ≠ upperCamelCase "my-doc" →
        (GraphQLType.object (upperCamelCase "my-doc") (buildDescription myDocNode)
            myDocNode.properties myDocNode.required).typeName? =
          some (upperCamelCase "my-doc") →
        (GraphQLType.object (upperCamelCase "my-doc") (buildDescription myDocNode)
            myDocNode.properties myDocNode.required).typeName? ≠ some "my-doc") ∧
      (refShape (refNode "MyDoc") "MyDoc" → "MyDoc" = "my-doc" →
        buildType "q" (refNode "MyDoc") (insertAssoc [] "my-doc"
            (.object (upperCamelCase "my-doc") (buildDescription myDocNode)
              myDocNode.properties myDocNode.required)) =
          .ok (.object (upperCamelCase "my-doc") (buildDescription myDocNode)
            myDocNode.properties myDocNode.required)) ∧
      (refShape (refNode "MyDoc") "MyDoc" → "MyDoc" ≠ "my-doc" →
        buildType "q" (refNode "MyDoc") (insertAssoc [] "my-doc"
            (.object (upperCamelCase "my-doc") (buildDescription myDocNode)
              myDocNode.properties myDocNode.required)) =
          match lookupAssoc [] "MyDoc" with
          | some t => .ok t
          | none => .error (err ("The referenced type " ++ "MyDoc" ++ " is unknown.")
              (some (upperCamelCase "q")))) :=
  claim_C10 "my-doc" "q" "MyDoc" myDocNode (refNode "MyDoc") []
    (.object (upperCamelCase "my-doc") (buildDescription myDocNode)
      myDocNode.properties myDocNode.required)
    rfl (buildType_object rfl rfl)

/--
C2: during the batch fold, the compilation of the document at position N is
handed exactly the registry accumulated from documents 1..N-1; every key of
that registry is the `$id` of an earlier document, and a `$ref` reaching the
reference branch with a key that is not an earlier document's `$id` fails
rather than resolving — so a reference can never resolve to a later
document's constructed type while document N is being compiled.
-/
theorem claim_C2 (docs₁ docs₂ : List SchemaNode) (d : SchemaNode) (reg : TypeMap)
    (h : foldDocs [] docs₁ = .ok reg) :
    foldDocs [] (docs₁ ++ d :: docs₂) =
        (schemaReducer reg d).bind (fun r => foldDocs r docs₂) ∧
      (∀ k t, lookupAssoc reg k = some t → k ∈ docs₁.filterMap SchemaNode.id) ∧
      (∀ p k n, refShape n k → k ∉ docs₁.filterMap SchemaNode.id →
        buildType p n reg =
          .error (err ("The referenced type " ++ k ++ " is unknown.")
            (some (upperCamelCase p)))) := by
  have hb : ∀ k t, lookupAssoc reg k = some t → k ∈ docs₁.filterMap SchemaNode.id := by
    intro k t hk
    rcases foldDocs_keys h k t hk with ⟨t0, h0⟩ | hmem
    · exact absurd h0 (by simp [lookupAssoc])
    · exact hmem
  refine ⟨?_, hb, ?_⟩
  · rw [foldDocs_append, h]
    rfl
  · intro p k n hr hk
    have hnone : lookupAssoc reg k = none := by
      cases hl : lookupAssoc reg k with
      | none => rfl
      | some t => exact absurd (hb k t hl) hk
    rw [buildType_refShape hr]
    simp [hnone]

/-- C2 witness: after compiling `[{$id:"A"}]`, the registry handed to the next
document holds exactly the key "A", and a `$ref` to any other key fails. -/
theorem claim_C2_witness :
    (foldDocs [] ([idTypeNode "A" "string"] ++ idTypeNode "B" "boolean" :: []) =
        (schemaReducer [("A", GraphQLType.scalarString)]
          (idTypeNode "B" "boolean")).bind (fun r => foldDocs r [])) ∧
      (∀ k t, lookupAssoc [("A", GraphQLType.scalarString)] k = some t →
        k ∈ [idTypeNode "A" "string"].filterMap SchemaNode.id) ∧
      (∀ p k n, refShape n k → k ∉ [idTypeNode "A" "string"].filterMap SchemaNode.id →
        buildType p n [("A", GraphQLType.scalarString)] =
          .error (err ("The referenced type " ++ k ++ " is unknown.")
            (some (upperCamelCase p)))) := by
  apply claim_C2
  rw [foldDocs_cons, @schemaReducer_of_id [] (idTypeNode "A" "string") "A" rfl,
    @buildType_basic "A" (idTypeNode "A" "string") "string" .scalarString []
      rfl rfl rfl rfl rfl]
  rfl

/--
C9 counterexample: two documents sharing the `$id` "A" (each independently
compilable and non-cross-referencing) fold to a registry with a single entry,
not one entry per document — the later write overwrites the earlier one.
-/
theorem claim_C9_counterexample :
    foldDocs [] [idTypeNode "A" "string", idTypeNode "A" "string"] =
        .ok [("A", GraphQLType.scalarString)] ∧
      ([("A", GraphQLType.scalarString)] : TypeMap).length ≠
        [idTypeNode "A" "string", idTypeNode "A" "string"].length := by
  have e1 : schemaReducer [] (idTypeNode "A" "string") =
      .ok [("A", GraphQLType.scalarString)] := by
    rw [@schemaReducer_of_id [] (idTypeNode "A" "string") "A" rfl,
      @buildType_basic "A" (idTypeNode "A" "string") "string" .scalarString []
        rfl rfl rfl rfl rfl]
    rfl
  have e2 : schemaReducer [("A", GraphQLType.scalarString)] (idTypeNode "A" "string") =
      .ok [("A", GraphQLType.scalarString)] := by
    rw [@schemaReducer_of_id [("A", GraphQLType.scalarString)]
        (idTypeNode "A" "string") "A" rfl,
      @buildType_basic "A" (idTypeNode "A" "string") "string" .scalarString
        [("A", GraphQLType.scalarString)] rfl rfl rfl rfl rfl]
    rfl
  refine ⟨?_, by decide⟩
  rw [foldDocs_cons, e1]
  show foldDocs [("A", GraphQLType.scalarString)] [idTypeNode "A" "string"] = _
  rw [foldDocs_cons, e2]
  rfl

/--
C9 amended: for a batch of documents each carrying an `$id`, with pairwise
distinct `$id`s, and each compiling successfully whatever the registry state
(in particular containing no `$ref` in eagerly-evaluated position), folding
from an empty registry succeeds and produces a registry with exactly one
entry per document, keyed in order by the documents' `$id`s.
-/
theorem claim_C9 (docs : List SchemaNode) (ids : List String)
    (hIds : docs.map SchemaNode.id = ids.map some)
    (hNodup : ids.Nodup)
    (hOk : ∀ d i, d ∈ docs → d.id = some i →
      ∀ r : TypeMap, ∃ t, buildType i d r = .ok t) :
    ∃ reg, foldDocs [] docs = .ok reg ∧ reg.map Prod.fst = ids ∧
      reg.length = docs.length := by
  obtain ⟨reg, hr1, hr2⟩ :=
    @foldDocs_fresh docs ids [] hIds hNodup (fun i _ => rfl) hOk
  simp only [List.map_nil, List.nil_append] at hr2
  refine ⟨reg, hr1, hr2, ?_⟩
  have hlen1 : reg.length = ids.length := by
    rw [← hr2, List.length_map]
  have hlen2 : docs.length = ids.length := by
    have hc := congrArg List.length hIds
    simpa using hc
  rw [hlen1, hlen2]

/-- C9 witness: two distinct-`$id` primitive documents fold to a two-entry
registry keyed `["A", "B"]`. -/
theorem claim_C9_witness :
    ∃ reg, foldDocs [] [idTypeNode "A" "string", idTypeNode "B" "boolean"] =
        .ok reg ∧
      reg.map Prod.fst = ["A", "B"] ∧
      reg.length = [idTypeNode "A" "string", idTypeNode "B" "boolean"].length := by
  apply claim_C9 [idTypeNode "A" "string", idTypeNode "B" "boolean"]
    ["A", "B"] rfl (by decide)
  intro d i hd hid r
  simp only [List.mem_cons, List.not_mem_nil, or_false] at hd
  rcases hd with rfl | rfl
  · simp only [idTypeNode, SchemaNode.id, Option.some.injEq] at hid
    subst hid
    exact ⟨.scalarString, buildType_basic rfl rfl rfl rfl rfl⟩
  · simp only [idTypeNode, SchemaNode.id, Option.some.injEq] at hid
    subst hid
    exact ⟨.scalarBoolean, buildType_basic rfl rfl rfl rfl rfl⟩

/--
C1 counterexample: a `$ref` under an object's `properties` sits inside the
lazy `fields` closure, so an unresolvable reference there does *not* make
`schemaReducer` fail — the document's type is registered, and the
unresolved-reference error only surfaces when the field map is forced.
-/
theorem claim_C1_counterexample :
    schemaReducer [] lazyRefDoc =
        .ok [("A", GraphQLType.object "A" none
          (some [("x", refNode "Missing")]) none)] ∧
      (GraphQLType.object "A" none (some [("x", refNode "Missing")]) none).getFields
          [("A", GraphQLType.object "A" none (some [("x", refNode "Missing")]) none)] =
        .error "The referenced type Missing is unknown. (AX)" := by
  constructor
  · rw [@schemaReducer_of_id [] lazyRefDoc "A" rfl,
      @buildType_object "A" lazyRefDoc [] rfl rfl]
    rfl
  · simp only [GraphQLType.getFields, buildFields, buildFieldList]
    rw [@buildType_refShape ("A" ++ "." ++ "x") "Missing" (refNode "Missing")
      [("A", GraphQLType.object "A" none (some [("x", refNode "Missing")]) none)]
      ⟨rfl, by decide, by decide, rfl, rfl⟩]
    rfl

/--
C1 amended: an unresolvable `$ref` in eagerly-evaluated position makes
`buildType` fail with an unresolved-reference error, the failure propagates
through the enclosing eager recursive calls (array `items`, `oneOf` cases),
and a failing top-level `buildType` makes the document's `schemaReducer` step
fail, registering nothing; a `$ref` beneath an object's `properties` is
instead deferred to field-forcing time (see the counterexample).
-/
theorem claim_C1 (reg : TypeMap) :
    (∀ p k n, refShape n k → lookupAssoc reg k = none →
        buildType p n reg =
          .error (err ("The referenced type " ++ k ++ " is unknown.")
            (some (upperCamelCase p)))) ∧
      (∀ p n itemsSchema e, n.oneOf = none → n.type = some "array" →
        n.items = some itemsSchema →
        buildType (upperCamelCase p) itemsSchema reg = .error e →
        buildType p n reg = .error e) ∧
      (∀ p n c rest e, n.oneOf = some (c :: rest) →
        buildType (upperCamelCase p ++ ".oneOf[" ++ toString (0 : Nat) ++ "]")
            (caseSchema c) reg = .error e →
        buildType p n reg = .error e) ∧
      (∀ d i e, d.id = some i → buildType i d reg = .error e →
        schemaReducer reg d = .error e) := by
  refine ⟨?_, ?_, ?_, ?_⟩
  · intro p k n hr hnone
    rw [buildType_refShape hr]
    simp [hnone]
  · intro p n itemsSchema e h1 h2 h3 herr
    rw [buildType_array h1 h2 h3, herr]
    rfl
  · intro p n c rest e hoo herr
    rw [buildType_oneOf hoo, buildCases_cons, herr]
    rfl
  · intro d i e hid herr
    exact schemaReducer_error hid herr

/-- C1 witness: a dangling top-level `$ref` fails `buildType`, and through it
the document's `schemaReducer` step. -/
theorem claim_C1_witness :
    buildType "a" (refNode "Missing") [] =
        .error (err ("The referenced type " ++ "Missing" ++ " is unknown.")
          (some (upperCamelCase "a"))) ∧
      schemaReducer [] topRefDoc =
        .error (err ("The referenced type " ++ "Missing" ++ " is unknown.")
          (some (upperCamelCase "D"))) := by
  have w := claim_C1 []
  refine ⟨w.1 "a" "Missing" (refNode "Missing") ⟨rfl, by decide, by decide, rfl, rfl⟩ rfl, ?_⟩
  exact w.2.2.2 topRefDoc "D" _ rfl
    (w.1 "D" "Missing" topRefDoc ⟨rfl, by decide, by decide, rfl, rfl⟩ rfl)

end Jsonschema2Graphql
